import Mathlib

/-!
# Greet service: handlers and callers

A shallow embedding of `greet/server/main.go` and `greet/client/main.go`.

* Go strings are Lean strings; `fmt.Sprintf` with `%s` / `%d` / `%v` is string
  concatenation of the rendered arguments.
* A Go `error` is a value of `GoError`; the nil error is `none`.
* A server stream is an environment: the results of its successive `Recv`
  calls (a list; once it is used up a further `Recv` blocks for ever) and the
  result of its k-th `Send` call. A handler yields the trace of the calls it
  made on the stream together with how it ended.
* Time is a virtual clock in nanoseconds, advanced by `time.Sleep`; a context
  answers `Err()` as a function of the clock.
-/

namespace GreetService

/-! ## Errors -/

/-- Status codes of `google.golang.org/grpc/codes`. -/
inductive Code
  | OK | Canceled | Unknown | InvalidArgument | DeadlineExceeded | NotFound
  | AlreadyExists | PermissionDenied | ResourceExhausted | FailedPrecondition
  | Aborted | OutOfRange | Unimplemented | Internal | Unavailable | DataLoss
  | Unauthenticated
  deriving DecidableEq, Repr

/-- Rendering of a code, `codes.Code.String`. -/
def Code.String : Code → String
  | .OK => "OK"
  | .Canceled => "Canceled"
  | .Unknown => "Unknown"
  | .InvalidArgument => "InvalidArgument"
  | .DeadlineExceeded => "DeadlineExceeded"
  | .NotFound => "NotFound"
  | .AlreadyExists => "AlreadyExists"
  | .PermissionDenied => "PermissionDenied"
  | .ResourceExhausted => "ResourceExhausted"
  | .FailedPrecondition => "FailedPrecondition"
  | .Aborted => "Aborted"
  | .OutOfRange => "OutOfRange"
  | .Unimplemented => "Unimplemented"
  | .Internal => "Internal"
  | .Unavailable => "Unavailable"
  | .DataLoss => "DataLoss"
  | .Unauthenticated => "Unauthenticated"

/-- Non-nil Go errors that the two programs can meet: the sentinels `io.EOF`,
`context.Canceled` and `context.DeadlineExceeded`, a gRPC status error
(`status.Error(c, desc)`), and any other error, known by its message (this is
what `fmt.Errorf` with `%v` builds). -/
inductive GoError
  | EOF
  | Canceled
  | DeadlineExceeded
  | status (c : Code) (desc : String)
  | errorString (msg : String)
  deriving DecidableEq, Repr

/-- The method `Error()` of an error, which is what `%v` prints. -/
def GoError.Error : GoError → String
  | .EOF => "EOF"
  | .Canceled => "context canceled"
  | .DeadlineExceeded => "context deadline exceeded"
  | .status c desc => "rpc error: code = " ++ c.String ++ " desc = " ++ desc
  | .errorString msg => msg

/-- Model of `fmt.Errorf(head + ": %v", err)` for the formats used in the
handlers: `head` already holds the text up to and including ": ". -/
def Errorf (head : String) (err : GoError) : GoError :=
  .errorString (head ++ err.Error)

/-- Model of `status.Error(c, msg)`. -/
def status.Error (c : Code) (msg : String) : GoError := .status c msg

/-! ## Messages (package greetpb) -/

/-- Modelled from the spec: the generated message `greetpb.Greeting`
(section 3, Greeting: firstName, lastName). -/
structure Greeting where
  FirstName : String
  LastName : String := ""
  deriving DecidableEq, Repr

/-- Modelled from the spec: the generated request messages of package greetpb
(`GreetRequest`, `GreetManyTimesRequest`, `LongGreetRequest`,
`GreetEveryoneRequest`, `GreetWithDeadlineRequest`), each of which wraps one
Greeting (section 3, Request); the greeting is a pointer and may be nil. -/
structure Request where
  Greeting : Option Greeting
  deriving DecidableEq, Repr

/-- Modelled from the spec: the generated response messages of package greetpb,
each of which holds one string (section 3, Response). -/
structure Response where
  Result : String
  deriving DecidableEq, Repr

/-- Modelled from the spec: the generated getter `GetGreeting`, which is safe
on a nil request and then yields nil. -/
def GetGreeting : Option Request → Option Greeting
  | none => none
  | some r => r.Greeting

/-- Modelled from the spec: the generated getter `GetFirstName`, which is safe
on a nil greeting and then yields the empty string. -/
def GetFirstName : Option Greeting → String
  | none => ""
  | some g => g.FirstName

/-- Modelled from the spec: the generated getter `GetResult`, which is safe
on a nil response and then yields the empty string. -/
def GetResult : Option Response → String
  | none => ""
  | some r => r.Result

/-! ## Strings and time -/

/-- Model of `strings.TrimRight(s, cutset)`: `s` without all its trailing
characters that occur in `cutset`. -/
def TrimRight (s cutset : String) : String :=
  ⟨(s.data.reverse.dropWhile (fun c => decide (c ∈ cutset.data))).reverse⟩

/-- One second as a `time.Duration` (nanoseconds). -/
def Second : Nat := 1000000000

/-! ## Streams, traces and outcomes -/

/-- Result of one `Recv` on a server stream: a message and a nil error, or a
nil message and an error (`io.EOF` at the end of the stream). -/
inductive RecvResult
  | msg (m : Request)
  | err (e : GoError)
  deriving DecidableEq, Repr

/-- What a handler does to the outside, in order. -/
inductive Event
  | recv (r : RecvResult)
  | send (m : Response) (err : Option GoError)
  | sendAndClose (m : Response) (err : Option GoError)
  | ctxErr (e : Option GoError)
  | sleep (d : Nat)
  | log (line : String)
  deriving DecidableEq, Repr

/-- How a streaming handler ends: it returns an error value (nil or not), or
it waits for ever in a `Recv` that the stream never answers. -/
inductive Ret
  | returned (err : Option GoError)
  | blocked
  deriving DecidableEq, Repr

/-- Trace and end of a streaming handler. -/
structure Outcome where
  trace : List Event
  ret : Ret
  deriving DecidableEq, Repr

/-- The outcome `o` preceded by the events `evs`. -/
def Outcome.after (evs : List Event) (o : Outcome) : Outcome :=
  ⟨evs ++ o.trace, o.ret⟩

/-- Trace and results of a unary handler. -/
structure UnaryOutcome where
  trace : List Event
  res : Option Response
  err : Option GoError
  deriving DecidableEq, Repr

/-- The unary outcome `o` preceded by the events `evs`. -/
def UnaryOutcome.after (evs : List Event) (o : UnaryOutcome) : UnaryOutcome :=
  ⟨evs ++ o.trace, o.res, o.err⟩

/-- A `context.Context` as the handlers use it: the answer of `Err()` at each
instant of the virtual clock. -/
structure Context where
  Err : Nat → Option GoError

/-! ## The server (greet/server/main.go) -/

/-- The loop of `GreetWithDeadline`: `iters` is what is left of `i = 0, 1, 2`
and `now` the clock. -/
def GreetWithDeadline.loop (ctx : Context) (req : Option Request) :
    List Nat → Nat → UnaryOutcome
  | [], _ =>
    let fn := GetFirstName (GetGreeting req)
    let result := "Hello " ++ fn
    ⟨[], some ⟨result⟩, none⟩
  | _ :: iters, now =>
    if ctx.Err now = some GoError.Canceled then
      ⟨[.ctxErr (ctx.Err now), .log "client cancelled the request"], none,
        some (status.Error .Canceled "the client cancelled the request")⟩
    else
      (GreetWithDeadline.loop ctx req iters (now + Second * 1)).after
        [.ctxErr (ctx.Err now), .sleep (Second * 1)]

/-- The handler `(*server).GreetWithDeadline`, started at clock 0. -/
def GreetWithDeadline (ctx : Context) (req : Option Request) : UnaryOutcome :=
  GreetWithDeadline.loop ctx req (List.range 3) 0

/-- The loop of `GreetEveryone`: `incoming` holds the results of the `Recv`
calls to come, `k` counts the `Send` calls made so far. -/
def GreetEveryone.loop (sendErr : Nat → Option GoError) :
    List RecvResult → Nat → Outcome
  | [], _ => ⟨[], .blocked⟩
  | .err e :: _, _ =>
    if e = GoError.EOF then
      ⟨[.recv (.err e)], .returned none⟩
    else
      ⟨[.recv (.err e)],
        .returned (some (Errorf "failed to receive streamed value from client: " e))⟩
  | .msg m :: incoming, k =>
    let firstName := GetFirstName (GetGreeting (some m))
    let res : Response := ⟨"Hello " ++ firstName⟩
    match sendErr k with
    | some e =>
      ⟨[.recv (.msg m), .send res (some e)],
        .returned (some (Errorf "error while sending greeting to client: " e))⟩
    | none =>
      (GreetEveryone.loop sendErr incoming (k + 1)).after
        [.recv (.msg m), .send res none]

/-- The handler `(*server).GreetEveryone` on a stream. -/
def GreetEveryone (incoming : List RecvResult) (sendErr : Nat → Option GoError) :
    Outcome :=
  GreetEveryone.loop sendErr incoming 0

/-- The loop of `LongGreet`: `res` is the content of the `strings.Builder`. -/
def LongGreet.loop (sendErr : Nat → Option GoError) :
    List RecvResult → String → Outcome
  | [], _ => ⟨[], .blocked⟩
  | .err e :: _, res =>
    if e = GoError.EOF then
      let m : Response := ⟨TrimRight res " "⟩
      match sendErr 0 with
      | some e2 =>
        ⟨[.recv (.err e), .sendAndClose m (some e2)],
          .returned (some (Errorf "failed to send greeting to client: " e2))⟩
      | none => ⟨[.recv (.err e), .sendAndClose m none], .returned none⟩
    else
      ⟨[.recv (.err e)],
        .returned (some (Errorf "error while reading client stream: " e))⟩
  | .msg m :: incoming, res =>
    let greeting := GetGreeting (some m)
    (LongGreet.loop sendErr incoming (res ++ (GetFirstName greeting ++ "! "))).after
      [.recv (.msg m)]

/-- The handler `(*server).LongGreet` on a stream. -/
def LongGreet (incoming : List RecvResult) (sendErr : Nat → Option GoError) :
    Outcome :=
  LongGreet.loop sendErr incoming ""

/-- The loop of `GreetManyTimes`: `iters` is what is left of `i = 0 .. 9`,
`k` counts the `Send` calls made so far. -/
def GreetManyTimes.loop (firstName : String) (sendErr : Nat → Option GoError) :
    List Nat → Nat → Outcome
  | [], _ => ⟨[], .returned none⟩
  | i :: iters, k =>
    let res : Response := ⟨"Hello #" ++ toString i ++ ", " ++ firstName⟩
    match sendErr k with
    | some e =>
      ⟨[.send res (some e)],
        .returned (some (Errorf "failed to send stream response: " e))⟩
    | none =>
      (GreetManyTimes.loop firstName sendErr iters (k + 1)).after
        [.send res none, .sleep Second]

/-- The handler `(*server).GreetManyTimes` on a stream. -/
def GreetManyTimes (req : Option Request) (sendErr : Nat → Option GoError) :
    Outcome :=
  let firstName := GetFirstName (GetGreeting req)
  GreetManyTimes.loop firstName sendErr (List.range 10) 0

/-- The handler `(*server).Greet`. -/
def Greet (_ctx : Context) (req : Option Request) : Option Response × Option GoError :=
  let fn := GetFirstName (GetGreeting req)
  let result := "Hello " ++ fn
  let res : Response := ⟨result⟩
  (some res, none)

/-- Requests that carry the given first names, in order. -/
def requestsOf (names : List String) : List RecvResult :=
  names.map (fun n => .msg ⟨some ⟨n, ""⟩⟩)

/-- Events of a trace that are sleeps add up to the time the handler took. -/
def elapsed : List Event → Nat
  | [] => 0
  | .sleep d :: evs => d + elapsed evs
  | _ :: evs => elapsed evs

/-- Responses that a trace handed to the stream with success, in order. -/
def sentResponses : List Event → List Response
  | [] => []
  | .send m none :: evs => m :: sentResponses evs
  | .sendAndClose m none :: evs => m :: sentResponses evs
  | _ :: evs => sentResponses evs

/-- An event is a failure of the stream when it is a `Recv` that returned an
error other than `io.EOF`, or a `Send` / `SendAndClose` that returned an
error. -/
def Event.isFailure : Event → Bool
  | .recv (.err e) => decide (e ≠ GoError.EOF)
  | .send _ (some _) => true
  | .sendAndClose _ (some _) => true
  | _ => false

/-- An event is an attempt to send a response. -/
def Event.isSend : Event → Bool
  | .send _ _ => true
  | .sendAndClose _ _ => true
  | _ => false

/-- The handler returned a non-nil error. -/
def Ret.isError : Ret → Bool
  | .returned (some _) => true
  | _ => false

/-! ## The client (greet/client/main.go) -/

/-- What a client function does to the outside, in order: a line on standard
output, a line of the logger, a line of the logger made of a head and the text
rendering `greeting.String()` of a greeting, `log.Fatalf` (the line is logged
and the process exits), and the deferred `cancel()`. -/
inductive Output
  | print (line : String)
  | log (line : String)
  | logGreeting (head : String) (greeting : Greeting)
  | fatal (line : String)
  | cancel
  deriving DecidableEq, Repr

/-- How a client function ends: it returns, or the process exits in
`log.Fatalf`. -/
inductive Ended
  | returned
  | exited
  deriving DecidableEq, Repr

/-- Outputs and end of a client function. -/
structure ClientRun where
  out : List Output
  ended : Ended
  deriving DecidableEq, Repr

/-- Model of `context.WithTimeout(context.Background(), timeout)` on the
virtual clock, which starts when the context is made: `Err()` is nil before
the deadline and `context.DeadlineExceeded` from the deadline on. -/
def WithTimeout (timeout : Nat) : Context :=
  ⟨fun now => if timeout ≤ now then some GoError.DeadlineExceeded else none⟩

/-- A `*status.Status`: a code and a message. -/
structure Status where
  code : Code
  desc : String
  deriving DecidableEq, Repr

/-- Model of `status.FromError` on a non-nil error: a status error yields its
status and true, any other error a status of code Unknown and false. -/
def status.FromError : GoError → Status × Bool
  | .status c desc => (⟨c, desc⟩, true)
  | e => (⟨.Unknown, e.Error⟩, false)

/-- Model of `(*Status).Code`. -/
def Status.Code (s : Status) : Code := s.code

/-- Model of `(*Status).Err`: nil for code OK, else the status error. -/
def Status.Err (s : Status) : Option GoError :=
  if s.code = Code.OK then none else some (.status s.code s.desc)

/-- What `%v` prints for an error value that may be nil. -/
def fmtErr : Option GoError → String
  | none => "<nil>"
  | some e => e.Error

/-- The names of `makeGreetings`. -/
def makeGreetings.names : List String :=
  ["Archie", "Reggie", "Veronica", "Betty", "JugHead"]

/-- The function `makeGreetings`. -/
def makeGreetings : List Greeting :=
  makeGreetings.names.map (fun name => { FirstName := name })

/-- The request that `doUnary`, `doServerStreaming` and `doUnaryWithDeadline`
send. -/
def wembley : Option Request :=
  some ⟨some { FirstName := "Wembley", LastName := "Leach" }⟩

/-- The part of `doUnaryWithDeadline` after the call `c.GreetWithDeadline`
has returned `(greet, err)`. -/
def doUnaryWithDeadline.afterCall (greet : Option Response) (err : Option GoError) :
    ClientRun :=
  let start := Output.print "Starting to do a Unary with deadline RCP…"
  let finish : List Output := [.print (GetResult greet), .cancel]
  match err with
  | some e =>
    let (errStat, ok) := status.FromError e
    if ok then
      if errStat.Code = Code.DeadlineExceeded then
        ⟨[start, .log "timeout hit! deadline was exceeded"] ++ finish, .returned⟩
      else
        ⟨[start, .fatal ("unexpected error: " ++ fmtErr errStat.Err)], .exited⟩
    else
      ⟨[start, .fatal ("greet rpc failed: " ++ e.Error)], .exited⟩
  | none => ⟨[start] ++ finish, .returned⟩

/-- The function `doUnaryWithDeadline`; `c` is the method `GreetWithDeadline`
of the client stub. -/
def doUnaryWithDeadline
    (c : Context → Option Request → Option Response × Option GoError)
    (timeout : Nat) : ClientRun :=
  let req := wembley
  let ctx := WithTimeout timeout
  let (greet, err) := c ctx req
  doUnaryWithDeadline.afterCall greet err

/-! ## doBiDirectionalStreaming: three goroutines

The function starts a send goroutine and a receive goroutine and then waits in
`<-waitc`. The three run interleaved; a schedule says whose turn it is. A
goroutine that cannot move (it waits in `Recv`, or on `waitc`) leaves the
state as it is. -/

/-- Result of one `Recv` on the client side of the stream. -/
inductive ClientRecv
  | msg (m : Response)
  | err (e : GoError)
  deriving DecidableEq, Repr

/-- Where the receive goroutine is: in its loop, at `waitc <- struct{}{}`
after it has seen `io.EOF`, or done. -/
inductive RecvLoop
  | receiving
  | signalling
  | done
  deriving DecidableEq, Repr

/-- Where the send goroutine is: in its loop with these greetings left
(`CloseSend` comes when none is left), or done. -/
inductive SendLoop
  | sending (left : List Greeting)
  | done
  deriving DecidableEq, Repr

/-- The goroutines of `doBiDirectionalStreaming`. -/
inductive Goroutine
  | sender
  | receiver
  | caller
  deriving DecidableEq, Repr

/-- State of a run of `doBiDirectionalStreaming`: the stream (results of the
`Recv` calls to come, result of the k-th `Send`, result of `CloseSend`, number
of sends made, whether `CloseSend` was called), the three goroutines, whether
the process has exited in `log.Fatalf`, and the log. -/
structure BiDi where
  incoming : List ClientRecv
  sendErr : Nat → Option GoError
  closeErr : Option GoError
  sent : Nat
  closed : Bool
  sendLoop : SendLoop
  recvLoop : RecvLoop
  returned : Bool
  exited : Bool
  out : List Output

/-- One turn of the send goroutine: the next `stream.Send`, or
`stream.CloseSend` once the greetings are used up. -/
def BiDi.stepSender (s : BiDi) : BiDi :=
  match s.sendLoop with
  | .done => s
  | .sending (greeting :: left) =>
    match s.sendErr s.sent with
    | some e =>
      { s with
        sent := s.sent + 1
        exited := true
        out := s.out ++ [.logGreeting "sending message: " greeting,
          .fatal ("failed to send greeting for " ++ GetFirstName (some greeting) ++ ": "
            ++ e.Error)] }
    | none =>
      { s with
        sent := s.sent + 1
        sendLoop := .sending left
        out := s.out ++ [.logGreeting "sending message: " greeting] }
  | .sending [] =>
    match s.closeErr with
    | some e =>
      { s with
        closed := true
        exited := true
        out := s.out ++ [.fatal ("failed to close stream: " ++ e.Error)] }
    | none => { s with closed := true, sendLoop := .done }

/-- One turn of the receive goroutine: the next `stream.Recv`; at
`waitc <- struct{}{}` it waits for the caller. -/
def BiDi.stepReceiver (s : BiDi) : BiDi :=
  match s.recvLoop with
  | .receiving =>
    match s.incoming with
    | [] => s
    | .err e :: incoming =>
      if e = GoError.EOF then
        { s with incoming := incoming, recvLoop := .signalling }
      else
        { s with
          incoming := incoming
          exited := true
          out := s.out ++ [.fatal ("failed to receive value from server: " ++ e.Error)] }
    | .msg recv :: incoming =>
      { s with
        incoming := incoming
        out := s.out ++ [.log ("Received  " ++ GetResult (some recv))] }
  | .signalling => s
  | .done => s

/-- One turn of the caller: `<-waitc` goes through when the receive goroutine
is at its send on `waitc` (the channel has no buffer), and then the function
returns. -/
def BiDi.stepCaller (s : BiDi) : BiDi :=
  if s.returned then s
  else
    match s.recvLoop with
    | .signalling => { s with recvLoop := .done, returned := true }
    | _ => s

/-- One turn of a goroutine; nothing moves once the process has exited. -/
def BiDi.step (s : BiDi) (g : Goroutine) : BiDi :=
  if s.exited then s
  else
    match g with
    | .sender => s.stepSender
    | .receiver => s.stepReceiver
    | .caller => s.stepCaller

/-- The function `doBiDirectionalStreaming` once `c.GreetEveryone` has
returned a stream without error: both goroutines are started and the caller
is at `<-waitc`. -/
def doBiDirectionalStreaming.start (incoming : List ClientRecv)
    (sendErr : Nat → Option GoError) (closeErr : Option GoError) : BiDi :=
  { incoming := incoming
    sendErr := sendErr
    closeErr := closeErr
    sent := 0
    closed := false
    sendLoop := .sending makeGreetings
    recvLoop := .receiving
    returned := false
    exited := false
    out := [.print "Starting to do Bi-Directional Streaming RPC…"] }

/-- The function `doBiDirectionalStreaming` under a schedule. -/
def doBiDirectionalStreaming (incoming : List ClientRecv)
    (sendErr : Nat → Option GoError) (closeErr : Option GoError)
    (schedule : List Goroutine) : BiDi :=
  schedule.foldl BiDi.step (doBiDirectionalStreaming.start incoming sendErr closeErr)

/-! ## Properties that the claims name -/

/-- The handler aborts when a poll observes expiry or cancellation: if some
poll in the trace observed `context.DeadlineExceeded` or `context.Canceled`,
the handler returned no response and a status error of code DeadlineExceeded
or Canceled. -/
def AbortsOnExpiryOrCancel (o : UnaryOutcome) : Prop :=
  (Event.ctxErr (some GoError.DeadlineExceeded) ∈ o.trace ∨
      Event.ctxErr (some GoError.Canceled) ∈ o.trace) →
    o.res = none ∧
      ∃ c desc, (c = Code.DeadlineExceeded ∨ c = Code.Canceled) ∧
        o.err = some (GoError.status c desc)

/-- A streaming handler propagates the failures of its stream: it returns a
non-nil error exactly when some call of its trace failed, and a failed call is
the last event of the trace. -/
def StopsAtFirstFailure (o : Outcome) : Prop :=
  (o.ret.isError = true ↔ ∃ ev, ev ∈ o.trace ∧ ev.isFailure = true) ∧
    ∀ pre ev post, o.trace = pre ++ ev :: post → ev.isFailure = true → post = []

/-- The function has returned only after both loops have ended. -/
def ReturnsOnlyAfterBothLoops (s : BiDi) : Prop :=
  s.returned = true → s.sendLoop = SendLoop.done ∧ s.recvLoop = RecvLoop.done

/-- What holds of the receive goroutine along every run on a stream whose
`Recv` results are `incoming`: the function has returned only if the goroutine
is done; once it has left its loop it has read messages and then `io.EOF`;
while it is in its loop (and the process lives) it has read messages only. -/
def ReceiveLoopInvariant (incoming : List ClientRecv) (s : BiDi) : Prop :=
  (s.returned = true → s.recvLoop = RecvLoop.done) ∧
    (s.recvLoop ≠ RecvLoop.receiving →
      ∃ msgs : List Response,
        incoming = msgs.map ClientRecv.msg ++ ClientRecv.err GoError.EOF :: s.incoming) ∧
    (s.recvLoop = RecvLoop.receiving → s.exited = false →
      ∃ msgs : List Response, incoming = msgs.map ClientRecv.msg ++ s.incoming)

/-! ## Helper lemmas -/

theorem after_trace (evs : List Event) (o : Outcome) :
    (o.after evs).trace = evs ++ o.trace := rfl

theorem after_ret (evs : List Event) (o : Outcome) :
    (o.after evs).ret = o.ret := rfl

theorem sentResponses_append (xs ys : List Event) :
    sentResponses (xs ++ ys) = sentResponses xs ++ sentResponses ys := by
  induction xs with
  | nil => rfl
  | cons x xs ih =>
    cases x with
    | send m e => cases e <;> simp [sentResponses, ih]
    | sendAndClose m e => cases e <;> simp [sentResponses, ih]
    | _ => simp [sentResponses, ih]

theorem trimRight_bang_space (xs : List Char) :
    TrimRight ⟨xs ++ ['!', ' ']⟩ " " = ⟨xs ++ ['!']⟩ := by
  simp [TrimRight, List.dropWhile_cons]

theorem intercalate_go_append (s : String) (l : List String) (p acc : String) :
    String.intercalate.go (p ++ acc) s l = p ++ String.intercalate.go acc s l := by
  induction l generalizing acc with
  | nil => rfl
  | cons a l ih =>
    simp only [String.intercalate.go]
    rw [String.append_assoc, String.append_assoc, ih, String.append_assoc]

theorem intercalate_cons_cons (s a b : String) (l : List String) :
    s.intercalate (a :: b :: l) = a ++ s ++ s.intercalate (b :: l) := by
  simp only [String.intercalate, String.intercalate.go]
  rw [String.append_assoc, intercalate_go_append, intercalate_go_append, String.append_assoc]

theorem joined_data (n : String) (names : List String) :
    ∃ xs : List Char,
      (n :: names).flatMap (fun x => x.data ++ ['!', ' ']) = xs ++ ['!', ' '] ∧
      (" ".intercalate ((n :: names).map (fun x => x ++ "!"))).data = xs ++ ['!'] := by
  induction names generalizing n with
  | nil => exact ⟨n.data, by simp, by simp [String.intercalate, String.intercalate.go]⟩
  | cons m names ih =>
    obtain ⟨xs, h1, h2⟩ := ih m
    refine ⟨n.data ++ ['!', ' '] ++ xs, ?_, ?_⟩
    · rw [List.flatMap_cons, h1]; simp
    · rw [List.map_cons, List.map_cons, intercalate_cons_cons]
      rw [List.map_cons] at h2
      simp [String.data_append, h2]

theorem trimRight_joined (names : List String) (acc : String)
    (h : acc.data = names.flatMap (fun x => x.data ++ ['!', ' '])) :
    TrimRight acc " " = " ".intercalate (names.map (fun x => x ++ "!")) := by
  cases names with
  | nil =>
    have : acc = "" := String.ext (by simpa using h)
    subst this
    rfl
  | cons n names =>
    obtain ⟨xs, h1, h2⟩ := joined_data n names
    have e1 : acc = ⟨xs ++ ['!', ' ']⟩ := String.ext (by rw [h, h1])
    rw [e1, trimRight_bang_space]
    exact String.ext (by rw [h2])

theorem longGreet_loop_msg (sendErr : Nat → Option GoError) (m : Request)
    (incoming : List RecvResult) (res : String) :
    LongGreet.loop sendErr (.msg m :: incoming) res =
      (LongGreet.loop sendErr incoming (res ++ (GetFirstName m.Greeting ++ "! "))).after
        [.recv (.msg m)] := rfl

theorem longGreet_loop_eq (sendErr : Nat → Option GoError) (rest : List RecvResult)
    (reqs : List Request) (acc : String) :
    LongGreet.loop sendErr (reqs.map RecvResult.msg ++ RecvResult.err GoError.EOF :: rest) acc =
      ⟨reqs.map (fun m => Event.recv (.msg m)) ++
          [.recv (.err .EOF),
            .sendAndClose
              ⟨TrimRight (reqs.foldl (fun r m => r ++ (GetFirstName m.Greeting ++ "! ")) acc) " "⟩
              (sendErr 0)],
        .returned ((sendErr 0).map (Errorf "failed to send greeting to client: "))⟩ := by
  induction reqs generalizing acc with
  | nil =>
    simp only [List.map_nil, List.nil_append, LongGreet.loop, List.foldl_nil]
    cases h : sendErr 0 <;> simp
  | cons m reqs ih =>
    rw [List.map_cons, List.cons_append, longGreet_loop_msg, ih]
    simp [Outcome.after]

theorem builder_data (reqs : List Request) (acc : String) :
    (reqs.foldl (fun r m => r ++ (GetFirstName m.Greeting ++ "! ")) acc).data =
      acc.data ++
        (reqs.map (fun m => GetFirstName m.Greeting)).flatMap (fun x => x.data ++ ['!', ' ']) := by
  induction reqs generalizing acc with
  | nil => simp
  | cons m reqs ih =>
    rw [List.foldl_cons, ih]
    simp [String.data_append]

theorem greetEveryone_loop_eq (sendErr : Nat → Option GoError) (rest : List RecvResult)
    (reqs : List Request) (k : Nat)
    (h : ∀ j, k ≤ j → j < k + reqs.length → sendErr j = none) :
    GreetEveryone.loop sendErr (reqs.map RecvResult.msg ++ RecvResult.err GoError.EOF :: rest) k =
      ⟨reqs.flatMap (fun m =>
          [Event.recv (.msg m), .send ⟨"Hello " ++ GetFirstName m.Greeting⟩ none]) ++
          [.recv (.err .EOF)],
        .returned none⟩ := by
  induction reqs generalizing k with
  | nil => simp [GreetEveryone.loop]
  | cons m reqs ih =>
    have hk : sendErr k = none := h k (Nat.le_refl k) (by simp)
    have ih2 := ih (k + 1) (fun j h1 h2 => h j (by omega) (by simp; omega))
    rw [List.map_cons, List.cons_append]
    simp only [GreetEveryone.loop, hk, ih2, Outcome.after, GetGreeting]
    simp

theorem greetManyTimes_loop_eq (firstName : String) (sendErr : Nat → Option GoError)
    (iters : List Nat) (k : Nat)
    (h : ∀ j, k ≤ j → j < k + iters.length → sendErr j = none) :
    GreetManyTimes.loop firstName sendErr iters k =
      ⟨iters.flatMap (fun i =>
          [Event.send ⟨"Hello #" ++ toString i ++ ", " ++ firstName⟩ none, .sleep Second]),
        .returned none⟩ := by
  induction iters generalizing k with
  | nil => simp [GreetManyTimes.loop]
  | cons i iters ih =>
    have hk : sendErr k = none := h k (Nat.le_refl k) (by simp)
    have ih2 := ih (k + 1) (fun j h1 h2 => h j (by omega) (by simp; omega))
    simp only [GreetManyTimes.loop, hk, ih2, Outcome.after]
    simp

/-! ## The claims -/

/-- C1. LongGreet, on N >= 0 requests followed by end-of-stream: the trace is
the N receives in order, the receive that observes end-of-stream, and then
exactly one SendAndClose, whose result is the first names, each followed by
"!", joined by single spaces (empty for N = 0, "Archie! Reggie! Veronica!" for
Archie, Reggie, Veronica); the handler returns what SendAndClose returned. -/
theorem LongGreet_joins_all_requests (reqs : List Request) (rest : List RecvResult)
    (sendErr : Nat → Option GoError) :
    LongGreet (reqs.map RecvResult.msg ++ RecvResult.err GoError.EOF :: rest) sendErr =
        ⟨reqs.map (fun m => Event.recv (.msg m)) ++
            [.recv (.err .EOF),
              .sendAndClose
                ⟨" ".intercalate (reqs.map (fun m => GetFirstName m.Greeting ++ "!"))⟩
                (sendErr 0)],
          .returned ((sendErr 0).map (Errorf "failed to send greeting to client: "))⟩ ∧
      " ".intercalate (([] : List Request).map (fun m => GetFirstName m.Greeting ++ "!")) = "" ∧
      LongGreet (requestsOf ["Archie", "Reggie", "Veronica"] ++ [.err .EOF]) (fun _ => none) =
        ⟨[.recv (.msg ⟨some ⟨"Archie", ""⟩⟩), .recv (.msg ⟨some ⟨"Reggie", ""⟩⟩),
            .recv (.msg ⟨some ⟨"Veronica", ""⟩⟩), .recv (.err .EOF),
            .sendAndClose ⟨"Archie! Reggie! Veronica!"⟩ none],
          .returned none⟩ := by
  refine ⟨?_, rfl, by decide⟩
  unfold LongGreet
  rw [longGreet_loop_eq]
  have h := trimRight_joined (reqs.map (fun m => GetFirstName m.Greeting))
    (reqs.foldl (fun r m => r ++ (GetFirstName m.Greeting ++ "! ")) "")
    (by rw [builder_data]; simp)
  rw [h, List.map_map]
  rfl

/-- C2. GreetManyTimes, when each of its sends succeeds: it sends exactly 10
responses, the i-th (i = 0..9, in increasing order) with result "Hello #i, n"
where i is written as its decimal digit and n is the first name of the request,
sleeps one second after each, and returns nil; for "Wembley" the results are
"Hello #0, Wembley" through "Hello #9, Wembley". -/
theorem GreetManyTimes_ten_responses (req : Option Request) (sendErr : Nat → Option GoError)
    (h : ∀ k, k < 10 → sendErr k = none) :
    GreetManyTimes req sendErr =
        ⟨(List.range 10).flatMap (fun i =>
            [Event.send
                ⟨"Hello #" ++ String.singleton (Nat.digitChar i) ++ ", "
                  ++ GetFirstName (GetGreeting req)⟩ none,
              .sleep Second]),
          .returned none⟩ ∧
      sentResponses (GreetManyTimes req sendErr).trace =
        (List.range 10).map (fun i =>
          ⟨"Hello #" ++ String.singleton (Nat.digitChar i) ++ ", "
            ++ GetFirstName (GetGreeting req)⟩) ∧
      sentResponses (GreetManyTimes wembley (fun _ => none)).trace =
        [⟨"Hello #0, Wembley"⟩, ⟨"Hello #1, Wembley"⟩, ⟨"Hello #2, Wembley"⟩,
          ⟨"Hello #3, Wembley"⟩, ⟨"Hello #4, Wembley"⟩, ⟨"Hello #5, Wembley"⟩,
          ⟨"Hello #6, Wembley"⟩, ⟨"Hello #7, Wembley"⟩, ⟨"Hello #8, Wembley"⟩,
          ⟨"Hello #9, Wembley"⟩] := by
  have e : GreetManyTimes req sendErr =
      ⟨(List.range 10).flatMap (fun i =>
          [Event.send
              ⟨"Hello #" ++ String.singleton (Nat.digitChar i) ++ ", "
                ++ GetFirstName (GetGreeting req)⟩ none,
            .sleep Second]),
        .returned none⟩ := by
    unfold GreetManyTimes
    rw [greetManyTimes_loop_eq _ _ _ _ (fun j _ h2 => h j (by simpa using h2))]
    have r : List.range 10 = [0, 1, 2, 3, 4, 5, 6, 7, 8, 9] := by decide
    rw [r]
    rfl
  refine ⟨e, ?_, by decide⟩
  rw [e]
  have r : List.range 10 = [0, 1, 2, 3, 4, 5, 6, 7, 8, 9] := by decide
  rw [r]
  rfl

theorem GreetManyTimes_ten_responses_witness :
    (∀ k, k < 10 → (fun _ : Nat => (none : Option GoError)) k = none) ∧
      (GreetManyTimes wembley (fun _ => none)).ret = .returned none :=
  ⟨fun _ _ => rfl,
    by rw [(GreetManyTimes_ten_responses wembley (fun _ => none) (fun _ _ => rfl)).1]⟩

/-- C4. Greet returns no error and one response whose result is "Hello "
followed by the first name of the request, which is empty for a request with
no greeting; for "Wembley" the result is "Hello Wembley". -/
theorem Greet_says_hello (ctx : Context) (req : Option Request) :
    Greet ctx req = (some ⟨"Hello " ++ GetFirstName (GetGreeting req)⟩, none) ∧
      Greet ctx (some ⟨none⟩) = (some ⟨"Hello "⟩, none) ∧
      Greet ctx none = (some ⟨"Hello "⟩, none) ∧
      Greet ctx wembley = (some ⟨"Hello Wembley"⟩, none) :=
  ⟨rfl, rfl, rfl, rfl⟩

/-- C9. GreetEveryone, on K >= 0 requests followed by end-of-stream and with
every send succeeding: the trace is, for each request in order, its receive
and then the send of "Hello " followed by its first name, and last the receive
that observes end-of-stream; the handler returns nil, and the responses sent
are exactly the K greetings in order. -/
theorem GreetEveryone_one_to_one (reqs : List Request) (rest : List RecvResult)
    (sendErr : Nat → Option GoError) (h : ∀ k, k < reqs.length → sendErr k = none) :
    GreetEveryone (reqs.map RecvResult.msg ++ RecvResult.err GoError.EOF :: rest) sendErr =
        ⟨reqs.flatMap (fun m =>
            [Event.recv (.msg m), .send ⟨"Hello " ++ GetFirstName m.Greeting⟩ none]) ++
            [.recv (.err .EOF)],
          .returned none⟩ ∧
      sentResponses
          (GreetEveryone (reqs.map RecvResult.msg ++ RecvResult.err GoError.EOF :: rest)
            sendErr).trace =
        reqs.map (fun m => ⟨"Hello " ++ GetFirstName m.Greeting⟩) := by
  have e := greetEveryone_loop_eq sendErr rest reqs 0 (fun j _ h2 => h j (by simpa using h2))
  unfold GreetEveryone
  refine ⟨e, ?_⟩
  rw [e]
  simp only [sentResponses_append]
  clear e h
  induction reqs with
  | nil => rfl
  | cons m reqs ih =>
    rw [List.flatMap_cons, sentResponses_append, List.map_cons]
    simp only [sentResponses, List.append_nil] at ih ⊢
    simp [ih]

theorem GreetEveryone_one_to_one_witness :
    (∀ k, k < (requestsOf ["Archie", "Reggie"]).length →
        (fun _ : Nat => (none : Option GoError)) k = none) ∧
      sentResponses
          (GreetEveryone
            ([⟨some ⟨"Archie", ""⟩⟩, ⟨some ⟨"Reggie", ""⟩⟩].map RecvResult.msg ++
              RecvResult.err GoError.EOF :: [])
            (fun _ => none)).trace =
        [⟨"Hello Archie"⟩, ⟨"Hello Reggie"⟩] :=
  ⟨fun _ _ => rfl,
    (GreetEveryone_one_to_one [⟨some ⟨"Archie", ""⟩⟩, ⟨some ⟨"Reggie", ""⟩⟩] []
      (fun _ => none) (fun _ _ => rfl)).2⟩

/-- The handler `GreetWithDeadline` written out over its three polls. -/
theorem greetWithDeadline_unfold (ctx : Context) (req : Option Request) :
    GreetWithDeadline ctx req =
      if ctx.Err 0 = some GoError.Canceled then
        ⟨[.ctxErr (ctx.Err 0), .log "client cancelled the request"], none,
          some (.status .Canceled "the client cancelled the request")⟩
      else if ctx.Err Second = some GoError.Canceled then
        ⟨[.ctxErr (ctx.Err 0), .sleep Second, .ctxErr (ctx.Err Second),
            .log "client cancelled the request"], none,
          some (.status .Canceled "the client cancelled the request")⟩
      else if ctx.Err (Second + Second) = some GoError.Canceled then
        ⟨[.ctxErr (ctx.Err 0), .sleep Second, .ctxErr (ctx.Err Second), .sleep Second,
            .ctxErr (ctx.Err (Second + Second)), .log "client cancelled the request"], none,
          some (.status .Canceled "the client cancelled the request")⟩
      else
        ⟨[.ctxErr (ctx.Err 0), .sleep Second, .ctxErr (ctx.Err Second), .sleep Second,
            .ctxErr (ctx.Err (Second + Second)), .sleep Second],
          some ⟨"Hello " ++ GetFirstName (GetGreeting req)⟩, none⟩ := by
  have r : List.range 3 = [0, 1, 2] := by decide
  unfold GreetWithDeadline
  rw [r]
  simp only [GreetWithDeadline.loop, Nat.mul_one, Nat.zero_add, UnaryOutcome.after,
    status.Error]
  split_ifs <;> rfl

theorem greetWithDeadline_canceled_iff (ctx : Context) (req : Option Request) :
    Event.ctxErr (some GoError.Canceled) ∈ (GreetWithDeadline ctx req).trace ↔
      (GreetWithDeadline ctx req).res = none ∧
        (GreetWithDeadline ctx req).err =
          some (.status .Canceled "the client cancelled the request") := by
  rw [greetWithDeadline_unfold]
  split_ifs with h0 h1 h2
  · simp [h0]
  · simp [h1]
  · simp [h2]
  · simp
    refine ⟨fun h => h0 h.symm, fun h => h1 h.symm, fun h => h2 h.symm⟩

/-- C3 (as amended). GreetWithDeadline: if some poll of the handler observes
that the caller cancelled (context error Canceled), the handler aborts and
returns a status error of code Canceled with no response. -/
theorem GreetWithDeadline_aborts_on_cancel (ctx : Context) (req : Option Request)
    (h : Event.ctxErr (some GoError.Canceled) ∈ (GreetWithDeadline ctx req).trace) :
    (GreetWithDeadline ctx req).res = none ∧
      (GreetWithDeadline ctx req).err =
        some (.status .Canceled "the client cancelled the request") :=
  (greetWithDeadline_canceled_iff ctx req).1 h

theorem GreetWithDeadline_aborts_on_cancel_witness :
    Event.ctxErr (some GoError.Canceled) ∈
        (GreetWithDeadline ⟨fun _ => some GoError.Canceled⟩ wembley).trace ∧
      (GreetWithDeadline ⟨fun _ => some GoError.Canceled⟩ wembley).res = none ∧
      (GreetWithDeadline ⟨fun _ => some GoError.Canceled⟩ wembley).err =
        some (.status .Canceled "the client cancelled the request") :=
  ⟨by decide,
    GreetWithDeadline_aborts_on_cancel ⟨fun _ => some GoError.Canceled⟩ wembley (by decide)⟩

/-- C3 (counterexample). Under a context whose every poll observes
DeadlineExceeded the handler polls three times, sleeps three times and
completes normally with the greeting and a nil error: it does not abort. -/
theorem GreetWithDeadline_ignores_expiry :
    GreetWithDeadline ⟨fun _ => some GoError.DeadlineExceeded⟩ wembley =
        ⟨[.ctxErr (some .DeadlineExceeded), .sleep Second,
            .ctxErr (some .DeadlineExceeded), .sleep Second,
            .ctxErr (some .DeadlineExceeded), .sleep Second],
          some ⟨"Hello Wembley"⟩, none⟩ ∧
      ¬ AbortsOnExpiryOrCancel
          (GreetWithDeadline ⟨fun _ => some GoError.DeadlineExceeded⟩ wembley) := by
  have e : GreetWithDeadline ⟨fun _ => some GoError.DeadlineExceeded⟩ wembley =
      ⟨[.ctxErr (some .DeadlineExceeded), .sleep Second,
          .ctxErr (some .DeadlineExceeded), .sleep Second,
          .ctxErr (some .DeadlineExceeded), .sleep Second],
        some ⟨"Hello Wembley"⟩, none⟩ := by decide
  refine ⟨e, ?_⟩
  rw [e]
  intro h
  have h2 := (h (Or.inl (by simp))).1
  simp at h2

/-- C10. GreetWithDeadline polls the context at the start of each of at most
three iterations (at clock 0, 1 s and 2 s). A poll observes Canceled exactly
when the handler returns no response and the status error of code Canceled; it
then stops at the first such poll, the j-th, after j polls each followed by one
sleep of a second. In every other case it polls and sleeps exactly three times
and returns a nil error and the response "Hello " + first name, which is what
Greet returns for the request. -/
theorem GreetWithDeadline_exact_outcome (ctx : Context) (req : Option Request) :
    (Event.ctxErr (some GoError.Canceled) ∈ (GreetWithDeadline ctx req).trace ↔
        (GreetWithDeadline ctx req).res = none ∧
          (GreetWithDeadline ctx req).err =
            some (.status .Canceled "the client cancelled the request")) ∧
      (Event.ctxErr (some GoError.Canceled) ∈ (GreetWithDeadline ctx req).trace ↔
        ∃ i, i < 3 ∧ ctx.Err (i * Second) = some GoError.Canceled) ∧
      (∀ j, j < 3 → (∀ i, i < j → ctx.Err (i * Second) ≠ some GoError.Canceled) →
        ctx.Err (j * Second) = some GoError.Canceled →
        GreetWithDeadline ctx req =
          ⟨(List.range j).flatMap (fun i => [.ctxErr (ctx.Err (i * Second)), .sleep Second]) ++
              [.ctxErr (some .Canceled), .log "client cancelled the request"],
            none, some (.status .Canceled "the client cancelled the request")⟩) ∧
      ((∀ i, i < 3 → ctx.Err (i * Second) ≠ some GoError.Canceled) →
        GreetWithDeadline ctx req =
            ⟨(List.range 3).flatMap (fun i => [.ctxErr (ctx.Err (i * Second)), .sleep Second]),
              some ⟨"Hello " ++ GetFirstName (GetGreeting req)⟩, none⟩ ∧
          ((GreetWithDeadline ctx req).res, (GreetWithDeadline ctx req).err) =
            Greet ctx req) := by
  have t0 : 0 * Second = 0 := Nat.zero_mul _
  have t1 : 1 * Second = Second := Nat.one_mul _
  have t2 : 2 * Second = Second + Second := Nat.two_mul _
  have r1 : List.range 1 = [0] := by decide
  have r2 : List.range 2 = [0, 1] := by decide
  have r3 : List.range 3 = [0, 1, 2] := by decide
  refine ⟨greetWithDeadline_canceled_iff ctx req, ?_, ?_, ?_⟩
  · rw [greetWithDeadline_canceled_iff, greetWithDeadline_unfold]
    constructor
    · intro h
      by_cases h0 : ctx.Err 0 = some GoError.Canceled
      · exact ⟨0, by omega, by rw [t0]; exact h0⟩
      · by_cases h1 : ctx.Err Second = some GoError.Canceled
        · exact ⟨1, by omega, by rw [t1]; exact h1⟩
        · by_cases h2 : ctx.Err (Second + Second) = some GoError.Canceled
          · exact ⟨2, by omega, by rw [t2]; exact h2⟩
          · simp [h0, h1, h2] at h
    · rintro ⟨i, hi, hc⟩
      have : i = 0 ∨ i = 1 ∨ i = 2 := by omega
      rcases this with rfl | rfl | rfl
      · rw [t0] at hc; simp [hc]
      · rw [t1] at hc; split_ifs <;> simp
      · rw [t2] at hc; split_ifs <;> simp
  · intro j hj hbefore hc
    rw [greetWithDeadline_unfold]
    have : j = 0 ∨ j = 1 ∨ j = 2 := by omega
    rcases this with rfl | rfl | rfl
    · rw [t0] at hc; simp [hc]
    · have h0 := hbefore 0 (by omega)
      rw [t0] at h0
      rw [t1] at hc
      simp [h0, hc, r1, t0]
    · have h0 := hbefore 0 (by omega)
      have h1 := hbefore 1 (by omega)
      rw [t0] at h0
      rw [t1] at h1
      rw [t2] at hc
      simp [h0, h1, hc, r2, t0, t1]
  · intro hall
    have h0 := hall 0 (by omega)
    have h1 := hall 1 (by omega)
    have h2 := hall 2 (by omega)
    rw [t0] at h0
    rw [t1] at h1
    rw [t2] at h2
    rw [greetWithDeadline_unfold]
    simp [h0, h1, h2, r3, t0, t1, t2, Greet]

theorem GreetWithDeadline_exact_outcome_witness :
    GreetWithDeadline ⟨fun t => if t = Second then some GoError.Canceled else none⟩ wembley =
      ⟨[.ctxErr none, .sleep Second, .ctxErr (some .Canceled),
          .log "client cancelled the request"],
        none, some (.status .Canceled "the client cancelled the request")⟩ :=
  (GreetWithDeadline_exact_outcome
    ⟨fun t => if t = Second then some GoError.Canceled else none⟩ wembley).2.2.1 1
    (by decide) (fun i hi => by interval_cases i; decide) (by decide)

/-- C5. doUnaryWithDeadline, for every result `(greet, err)` of the call: the
process exits in log.Fatalf exactly when err is non-nil and is not a status
error of code DeadlineExceeded; on a status error of code DeadlineExceeded the
timeout is logged and the function goes on, prints the result of the response
(the empty string for the absent response) and returns; a call without error
is never fatal. -/
theorem doUnaryWithDeadline_fatal_iff
    (c : Context → Option Request → Option Response × Option GoError) (timeout : Nat) :
    ((doUnaryWithDeadline c timeout).ended = Ended.exited ↔
        ∃ e, (c (WithTimeout timeout) wembley).2 = some e ∧
          ∀ desc, e ≠ GoError.status Code.DeadlineExceeded desc) ∧
      (∀ desc,
        (c (WithTimeout timeout) wembley).2 = some (.status .DeadlineExceeded desc) →
        doUnaryWithDeadline c timeout =
          ⟨[.print "Starting to do a Unary with deadline RCP…",
              .log "timeout hit! deadline was exceeded",
              .print (GetResult (c (WithTimeout timeout) wembley).1), .cancel],
            .returned⟩) ∧
      ((c (WithTimeout timeout) wembley).2 = none →
        doUnaryWithDeadline c timeout =
          ⟨[.print "Starting to do a Unary with deadline RCP…",
              .print (GetResult (c (WithTimeout timeout) wembley).1), .cancel],
            .returned⟩) ∧
      GetResult none = "" := by
  have e : doUnaryWithDeadline c timeout =
      doUnaryWithDeadline.afterCall (c (WithTimeout timeout) wembley).1
        (c (WithTimeout timeout) wembley).2 := rfl
  rw [e]
  generalize (c (WithTimeout timeout) wembley).1 = greet
  generalize (c (WithTimeout timeout) wembley).2 = err
  refine ⟨?_, ?_, ?_, rfl⟩
  · cases err with
    | none => simp [doUnaryWithDeadline.afterCall]
    | some e =>
      cases e with
      | status code desc =>
        by_cases hd : code = Code.DeadlineExceeded
        · subst hd
          simp [doUnaryWithDeadline.afterCall, status.FromError, Status.Code]
        · simp [doUnaryWithDeadline.afterCall, status.FromError, Status.Code, hd]
      | _ => simp [doUnaryWithDeadline.afterCall, status.FromError]
  · intro desc h
    subst h
    simp [doUnaryWithDeadline.afterCall, status.FromError, Status.Code]
  · intro h
    subst h
    simp [doUnaryWithDeadline.afterCall]

theorem doUnaryWithDeadline_fatal_iff_witness :
    (doUnaryWithDeadline (fun _ _ => (none, some (.status .Unavailable "connection refused")))
        (Second * 5)).ended = Ended.exited ∧
      doUnaryWithDeadline
          (fun _ _ => (none, some (.status .DeadlineExceeded "context deadline exceeded")))
          (Second * 1) =
        ⟨[.print "Starting to do a Unary with deadline RCP…",
            .log "timeout hit! deadline was exceeded", .print "", .cancel],
          .returned⟩ :=
  ⟨(doUnaryWithDeadline_fatal_iff
      (fun _ _ => (none, some (.status .Unavailable "connection refused"))) (Second * 5)).1.2
      ⟨_, rfl, fun desc h => by simp at h⟩,
    (doUnaryWithDeadline_fatal_iff
      (fun _ _ => (none, some (.status .DeadlineExceeded "context deadline exceeded")))
      (Second * 1)).2.1 _ rfl⟩

/-- C6 (what the code does at the two timeouts). GreetWithDeadline hands back
a response only after its three sleeps of one second: for every context and
request, a run that yields a response took exactly 3 s, and under a context
that no poll finds cancelled (a deadline that has passed does not count) the
run does yield the greeting, after 3 s. So no response is ready within a
timeout of 1 s (1 s < 3 s), and the response is ready within a timeout of 5 s
(3 s < 5 s): the opposite of what the comments in the client's main say. -/
theorem GreetWithDeadline_response_takes_three_seconds (ctx : Context)
    (req : Option Request) :
    ((GreetWithDeadline ctx req).res ≠ none →
        elapsed (GreetWithDeadline ctx req).trace = Second * 3) ∧
      ((∀ i, i < 3 → ctx.Err (i * Second) ≠ some GoError.Canceled) →
        (GreetWithDeadline ctx req).res = some ⟨"Hello " ++ GetFirstName (GetGreeting req)⟩ ∧
          (GreetWithDeadline ctx req).err = none ∧
          elapsed (GreetWithDeadline ctx req).trace = Second * 3) ∧
      Second * 1 < Second * 3 ∧ Second * 3 < Second * 5 := by
  have t0 : 0 * Second = 0 := Nat.zero_mul _
  have t1 : 1 * Second = Second := Nat.one_mul _
  have t2 : 2 * Second = Second + Second := Nat.two_mul _
  have e3 : Second + (Second + (Second + 0)) = Second * 3 := by omega
  refine ⟨?_, ?_, by decide, by decide⟩
  · rw [greetWithDeadline_unfold]
    split_ifs
    · intro h; exact absurd rfl h
    · intro h; exact absurd rfl h
    · intro h; exact absurd rfl h
    · intro _; exact e3
  · intro hall
    have h0 := hall 0 (by omega)
    have h1 := hall 1 (by omega)
    have h2 := hall 2 (by omega)
    rw [t0] at h0
    rw [t1] at h1
    rw [t2] at h2
    rw [greetWithDeadline_unfold]
    rw [if_neg h0, if_neg h1, if_neg h2]
    exact ⟨rfl, rfl, e3⟩

theorem GreetWithDeadline_response_takes_three_seconds_witness :
    GreetWithDeadline (WithTimeout (Second * 1)) wembley =
        ⟨[.ctxErr none, .sleep Second, .ctxErr (some .DeadlineExceeded), .sleep Second,
            .ctxErr (some .DeadlineExceeded), .sleep Second],
          some ⟨"Hello Wembley"⟩, none⟩ ∧
      elapsed (GreetWithDeadline (WithTimeout (Second * 1)) wembley).trace = Second * 3 ∧
      GreetWithDeadline (WithTimeout (Second * 5)) wembley =
        ⟨[.ctxErr none, .sleep Second, .ctxErr none, .sleep Second, .ctxErr none,
            .sleep Second],
          some ⟨"Hello Wembley"⟩, none⟩ ∧
      elapsed (GreetWithDeadline (WithTimeout (Second * 5)) wembley).trace = Second * 3 :=
  ⟨by decide,
    (GreetWithDeadline_response_takes_three_seconds (WithTimeout (Second * 1)) wembley).1
      (by decide),
    by decide,
    (GreetWithDeadline_response_takes_three_seconds (WithTimeout (Second * 5)) wembley).1
      (by decide)⟩

theorem stopsAtFirstFailure_after (evs : List Event) (o : Outcome)
    (hevs : ∀ ev, ev ∈ evs → ev.isFailure = false) (h : StopsAtFirstFailure o) :
    StopsAtFirstFailure (o.after evs) := by
  obtain ⟨h1, h2⟩ := h
  refine ⟨?_, ?_⟩
  · rw [after_ret, after_trace, h1]
    constructor
    · rintro ⟨ev, hm, hf⟩
      exact ⟨ev, List.mem_append_right _ hm, hf⟩
    · rintro ⟨ev, hm, hf⟩
      rcases List.mem_append.1 hm with hm | hm
      · rw [hevs ev hm] at hf
        exact absurd hf (by decide)
      · exact ⟨ev, hm, hf⟩
  · rw [after_trace]
    clear h1
    induction evs with
    | nil => exact h2
    | cons a evs ih =>
      intro pre ev post he hf
      cases pre with
      | nil =>
        simp only [List.nil_append, List.cons_append, List.cons.injEq] at he
        have := hevs a (List.mem_cons_self _ _)
        rw [he.1, hf] at this
        exact absurd this (by decide)
      | cons b pre =>
        simp only [List.cons_append, List.cons.injEq] at he
        exact ih (fun ev hm => hevs ev (List.mem_cons_of_mem _ hm)) pre ev post he.2 hf

theorem stopsAtFirstFailure_nil (ret : Ret) (h : ret.isError = false) :
    StopsAtFirstFailure ⟨[], ret⟩ := by
  refine ⟨?_, ?_⟩
  · simp [h]
  · intro pre ev post he
    simp at he

theorem stopsAtFirstFailure_single (last : Event) (ret : Ret)
    (h : ret.isError = last.isFailure) : StopsAtFirstFailure ⟨[last], ret⟩ := by
  refine ⟨?_, ?_⟩
  · simp [h]
  · intro pre ev post he _
    cases pre with
    | nil =>
      simp only [List.nil_append, List.cons.injEq] at he
      exact he.2.symm
    | cons b pre => simp at he

theorem stopsAtFirstFailure_snoc (goods : List Event) (last : Event) (ret : Ret)
    (hg : ∀ ev, ev ∈ goods → ev.isFailure = false) (h : ret.isError = last.isFailure) :
    StopsAtFirstFailure ⟨goods ++ [last], ret⟩ :=
  stopsAtFirstFailure_after goods ⟨[last], ret⟩ hg (stopsAtFirstFailure_single last ret h)

theorem greetEveryone_loop_stops (sendErr : Nat → Option GoError)
    (incoming : List RecvResult) (k : Nat) :
    StopsAtFirstFailure (GreetEveryone.loop sendErr incoming k) := by
  induction incoming generalizing k with
  | nil => exact stopsAtFirstFailure_nil _ rfl
  | cons r incoming ih =>
    cases r with
    | err e =>
      by_cases he : e = GoError.EOF
      · simp only [GreetEveryone.loop, he, if_true]
        exact stopsAtFirstFailure_single _ _ rfl
      · simp only [GreetEveryone.loop, he, if_false]
        exact stopsAtFirstFailure_single _ _ (by simp [Ret.isError, Event.isFailure, he])
    | msg m =>
      simp only [GreetEveryone.loop]
      cases hs : sendErr k with
      | some e =>
        exact stopsAtFirstFailure_snoc [.recv (.msg m)] _ _
          (by simp [Event.isFailure]) rfl
      | none =>
        exact stopsAtFirstFailure_after _ _ (by simp [Event.isFailure]) (ih (k + 1))

theorem longGreet_loop_stops (sendErr : Nat → Option GoError)
    (incoming : List RecvResult) (res : String) :
    StopsAtFirstFailure (LongGreet.loop sendErr incoming res) := by
  induction incoming generalizing res with
  | nil => exact stopsAtFirstFailure_nil _ rfl
  | cons r incoming ih =>
    cases r with
    | err e =>
      by_cases he : e = GoError.EOF
      · simp only [LongGreet.loop, he, if_true]
        cases hs : sendErr 0 with
        | some e2 =>
          exact stopsAtFirstFailure_snoc [.recv (.err .EOF)] _ _
            (by simp [Event.isFailure]) rfl
        | none =>
          exact stopsAtFirstFailure_snoc [.recv (.err .EOF)] _ _
            (by simp [Event.isFailure]) rfl
      · simp only [LongGreet.loop, he, if_false]
        exact stopsAtFirstFailure_single _ _ (by simp [Ret.isError, Event.isFailure, he])
    | msg m =>
      rw [longGreet_loop_msg]
      exact stopsAtFirstFailure_after _ _ (by simp [Event.isFailure]) (ih _)

theorem greetManyTimes_loop_stops (firstName : String) (sendErr : Nat → Option GoError)
    (iters : List Nat) (k : Nat) :
    StopsAtFirstFailure (GreetManyTimes.loop firstName sendErr iters k) := by
  induction iters generalizing k with
  | nil => exact stopsAtFirstFailure_nil _ rfl
  | cons i iters ih =>
    simp only [GreetManyTimes.loop]
    cases hs : sendErr k with
    | some e => exact stopsAtFirstFailure_single _ _ rfl
    | none =>
      exact stopsAtFirstFailure_after _ _ (by simp [Event.isFailure]) (ih (k + 1))

theorem longGreet_loop_no_send (sendErr : Nat → Option GoError)
    (incoming : List RecvResult) (res : String) (e : GoError) (he : e ≠ GoError.EOF)
    (hm : Event.recv (.err e) ∈ (LongGreet.loop sendErr incoming res).trace) :
    ∀ ev, ev ∈ (LongGreet.loop sendErr incoming res).trace → ev.isSend = false := by
  induction incoming generalizing res with
  | nil => simp [LongGreet.loop]
  | cons r incoming ih =>
    cases r with
    | err e1 =>
      by_cases h1 : e1 = GoError.EOF
      · subst h1
        simp only [LongGreet.loop, if_true] at hm
        cases hs : sendErr 0 <;> simp [hs, he] at hm
      · simp only [LongGreet.loop, h1, if_false]
        simp [Event.isSend]
    | msg m =>
      rw [longGreet_loop_msg, after_trace] at hm ⊢
      simp only [List.singleton_append, List.mem_cons] at hm ⊢
      rcases hm with hm | hm
      · exact absurd hm (by simp)
      · rintro ev (rfl | hev)
        · rfl
        · exact ih _ hm ev hev

/-- C8. GreetEveryone, LongGreet and GreetManyTimes, for every behaviour of
the stream: the handler returns a non-nil error exactly when some receive of
its trace returned an error other than end-of-stream or some send (SendAndClose
included) of its trace failed; such a failure is the last event of the trace,
so nothing is received or sent after it; and in LongGreet a receive error other
than end-of-stream means that no response was sent at all. -/
theorem streaming_handlers_stop_at_first_failure (incoming : List RecvResult)
    (sendErr : Nat → Option GoError) (req : Option Request) :
    StopsAtFirstFailure (GreetEveryone incoming sendErr) ∧
      StopsAtFirstFailure (LongGreet incoming sendErr) ∧
      StopsAtFirstFailure (GreetManyTimes req sendErr) ∧
      ((∃ e, e ≠ GoError.EOF ∧ Event.recv (.err e) ∈ (LongGreet incoming sendErr).trace) →
        ∀ ev, ev ∈ (LongGreet incoming sendErr).trace → ev.isSend = false) :=
  ⟨greetEveryone_loop_stops sendErr incoming 0,
    longGreet_loop_stops sendErr incoming "",
    greetManyTimes_loop_stops _ sendErr _ 0,
    fun ⟨e, he, hm⟩ => longGreet_loop_no_send sendErr incoming "" e he hm⟩

theorem streaming_handlers_stop_at_first_failure_witness :
    GreetEveryone [.msg ⟨some ⟨"Archie", ""⟩⟩, .err (.errorString "connection reset")]
        (fun _ => none) =
      ⟨[.recv (.msg ⟨some ⟨"Archie", ""⟩⟩), .send ⟨"Hello Archie"⟩ none,
          .recv (.err (.errorString "connection reset"))],
        .returned (some (.errorString
          "failed to receive streamed value from client: connection reset"))⟩ ∧
      StopsAtFirstFailure
        (GreetEveryone [.msg ⟨some ⟨"Archie", ""⟩⟩, .err (.errorString "connection reset")]
          (fun _ => none)) :=
  ⟨by decide,
    (streaming_handlers_stop_at_first_failure
      [.msg ⟨some ⟨"Archie", ""⟩⟩, .err (.errorString "connection reset")]
      (fun _ => none) none).1⟩

theorem receiveLoopInvariant_stepSender (incoming : List ClientRecv) (s : BiDi)
    (hx : s.exited = false) (h : ReceiveLoopInvariant incoming s) :
    ReceiveLoopInvariant incoming s.stepSender := by
  obtain ⟨h1, h2, h3⟩ := h
  unfold BiDi.stepSender
  split
  · exact ⟨h1, h2, h3⟩
  · split
    · exact ⟨h1, h2, fun hr _ => h3 hr hx⟩
    · exact ⟨h1, h2, fun hr _ => h3 hr hx⟩
  · split
    · exact ⟨h1, h2, fun hr _ => h3 hr hx⟩
    · exact ⟨h1, h2, fun hr _ => h3 hr hx⟩

theorem receiveLoopInvariant_stepReceiver (incoming : List ClientRecv) (s : BiDi)
    (hx : s.exited = false) (h : ReceiveLoopInvariant incoming s) :
    ReceiveLoopInvariant incoming s.stepReceiver := by
  obtain ⟨h1, h2, h3⟩ := h
  unfold BiDi.stepReceiver
  split
  · rename_i hr
    obtain ⟨msgs, hm⟩ := h3 hr hx
    have hret : s.returned = true → False := fun ht => by
      have := h1 ht
      rw [hr] at this
      exact absurd this (by decide)
    split
    · exact ⟨h1, h2, h3⟩
    · rename_i e rest hi
      split
      · rename_i he
        refine ⟨fun ht => absurd ht (by simpa using hret), fun _ => ⟨msgs, ?_⟩, ?_⟩
        · rw [hm, hi, he]
        · intro hc
          exact absurd hc (by simp)
      · refine ⟨h1, fun hn => absurd hr hn, ?_⟩
        intro _ hc
        exact absurd hc (by simp)
    · rename_i recv rest hi
      refine ⟨h1, fun hn => absurd hr hn, fun _ _ => ⟨msgs ++ [recv], ?_⟩⟩
      rw [hm, hi]
      simp
  · exact ⟨h1, h2, h3⟩
  · exact ⟨h1, h2, h3⟩

theorem receiveLoopInvariant_stepCaller (incoming : List ClientRecv) (s : BiDi)
    (h : ReceiveLoopInvariant incoming s) :
    ReceiveLoopInvariant incoming s.stepCaller := by
  obtain ⟨h1, h2, h3⟩ := h
  unfold BiDi.stepCaller
  split
  · exact ⟨h1, h2, h3⟩
  · split
    · rename_i hr
      refine ⟨fun _ => rfl, fun _ => ?_, fun hc => absurd hc (by simp)⟩
      exact h2 (by rw [hr]; decide)
    · exact ⟨h1, h2, h3⟩

theorem receiveLoopInvariant_step (incoming : List ClientRecv) (s : BiDi) (g : Goroutine)
    (h : ReceiveLoopInvariant incoming s) : ReceiveLoopInvariant incoming (s.step g) := by
  unfold BiDi.step
  by_cases hx : s.exited = true
  · simp only [hx, if_true]
    exact h
  · have hx2 : s.exited = false := by simpa using hx
    simp only [hx2, Bool.false_eq_true, if_false]
    cases g with
    | sender => exact receiveLoopInvariant_stepSender incoming s hx2 h
    | receiver => exact receiveLoopInvariant_stepReceiver incoming s hx2 h
    | caller => exact receiveLoopInvariant_stepCaller incoming s h

theorem receiveLoopInvariant_run (incoming : List ClientRecv) (schedule : List Goroutine)
    (s : BiDi) (h : ReceiveLoopInvariant incoming s) :
    ReceiveLoopInvariant incoming (schedule.foldl BiDi.step s) := by
  induction schedule generalizing s with
  | nil => exact h
  | cons g schedule ih =>
    exact ih (s.step g) (receiveLoopInvariant_step incoming s g h)

/-- C7 (as amended). doBiDirectionalStreaming, under every schedule of its
goroutines and every behaviour of the stream: when the function has returned,
the receive loop has ended, having read only messages and then end-of-stream.
(Nothing is said of the send loop, for which the function does not wait.) -/
theorem doBiDirectionalStreaming_returns_after_receive_loop
    (incoming : List ClientRecv) (sendErr : Nat → Option GoError)
    (closeErr : Option GoError) (schedule : List Goroutine)
    (h : (doBiDirectionalStreaming incoming sendErr closeErr schedule).returned = true) :
    (doBiDirectionalStreaming incoming sendErr closeErr schedule).recvLoop = RecvLoop.done ∧
      ∃ msgs : List Response,
        incoming = msgs.map ClientRecv.msg ++ ClientRecv.err GoError.EOF ::
          (doBiDirectionalStreaming incoming sendErr closeErr schedule).incoming := by
  have inv : ReceiveLoopInvariant incoming
      (doBiDirectionalStreaming incoming sendErr closeErr schedule) := by
    unfold doBiDirectionalStreaming
    apply receiveLoopInvariant_run
    refine ⟨fun hc => absurd hc (by simp [doBiDirectionalStreaming.start]),
      fun hc => absurd rfl hc, fun _ _ => ⟨[], rfl⟩⟩
  have hd := inv.1 h
  exact ⟨hd, inv.2.1 (by rw [hd]; decide)⟩

theorem doBiDirectionalStreaming_returns_after_receive_loop_witness :
    (doBiDirectionalStreaming [.msg ⟨"Hello Archie"⟩, .err .EOF] (fun _ => none) none
        [.sender, .receiver, .receiver, .caller]).returned = true ∧
      (doBiDirectionalStreaming [.msg ⟨"Hello Archie"⟩, .err .EOF] (fun _ => none) none
        [.sender, .receiver, .receiver, .caller]).recvLoop = RecvLoop.done :=
  ⟨by decide,
    (doBiDirectionalStreaming_returns_after_receive_loop
      [.msg ⟨"Hello Archie"⟩, .err .EOF] (fun _ => none) none
      [.sender, .receiver, .receiver, .caller] (by decide)).1⟩

/-- C7 (counterexample). On a stream whose first Recv returns end-of-stream,
with the receive goroutine and then the caller scheduled, the function has
returned while the send loop has sent nothing, still has all five greetings to
send and has not called CloseSend. -/
theorem doBiDirectionalStreaming_returns_while_sending :
    (doBiDirectionalStreaming [.err .EOF] (fun _ => none) none
        [.receiver, .caller]).returned = true ∧
      (doBiDirectionalStreaming [.err .EOF] (fun _ => none) none
        [.receiver, .caller]).sendLoop = SendLoop.sending makeGreetings ∧
      (doBiDirectionalStreaming [.err .EOF] (fun _ => none) none
        [.receiver, .caller]).sent = 0 ∧
      (doBiDirectionalStreaming [.err .EOF] (fun _ => none) none
        [.receiver, .caller]).closed = false ∧
      ¬ ReturnsOnlyAfterBothLoops
        (doBiDirectionalStreaming [.err .EOF] (fun _ => none) none [.receiver, .caller]) := by
  refine ⟨by decide, by decide, by decide, by decide, ?_⟩
  intro h
  exact absurd (h (by decide)).1 (by decide)

end GreetService
